import Mathlib

/-!
Verification of the pipeline orchestration engine of the ai-market-research
repository.

The definitions below are a shallow embedding of the Python source:

* `StageStatus`, `PipelineStage`, `ResearchPipeline`, `ProgressUpdate`,
  `ResearchTask`, `TaskResponse` mirror `a2a_agents/protocols/a2a_protocol.py`;
* `handle_request` mirrors `BaseAgent.handle_request` in
  `a2a_agents/agents/base_agent.py`;
* `runStages` / `run_pipeline` mirror `run_pipeline` in
  `a2a_agents/orchestrator.py`: the executor is modelled as a function from
  an agent registry (which agent names are registered) and a response oracle
  (the `TaskResponse` produced by the agent invoked at each loop index) to
  the final task together with the ordered list of task snapshots persisted
  by `store_task` and the ordered list of `ProgressUpdate`s published.

Wall-clock quantities (`time.time()` timestamps) are outside the model: the
task-level `completed_at` assignment is modelled by the flag
`completed_at_set`, per-stage `started_at` / `completed_at` are dropped, and
stage durations are taken from the agent response, as in the source.
Python `float` arithmetic in `ResearchPipeline.progress` is idealised over
`ℚ`, with `round(x, 1)` modelled as round-half-to-even to one decimal
(Python's documented tie rule; exact binary-float tie behaviour has no `ℚ`
counterpart).
-/

/-- `StageStatus` enum from `a2a_protocol.py`. -/
inductive StageStatus where
  | pending
  | running
  | completed
  | failed
  | skipped
deriving DecidableEq, Repr

/-- An agent output dictionary, abstracted to the parts the orchestrator
inspects: the presence and truthiness of the `valid` key (read by
`output_data.get("valid", default)`), plus the remaining entries, kept
opaque. The empty map `{}` is `Output.emptyMap`. -/
structure Output where
  valid : Option Bool := none
  rest : List (String × String) := []
deriving DecidableEq, Repr

/-- The empty output dictionary `{}`. -/
def Output.emptyMap : Output := {}

/-- `TaskResponse` from `a2a_protocol.py` (the `timestamp` field is
wall-clock and dropped). -/
structure TaskResponse where
  task_id : String
  agent_name : String
  output_data : Output := {}
  status : StageStatus := .completed
  duration : ℚ := 0
  error : Option String := none
deriving DecidableEq, Repr

/-- `PipelineStage` from `a2a_protocol.py` (wall-clock `started_at` /
`completed_at` dropped). -/
structure PipelineStage where
  name : String
  agent_name : String
  status : StageStatus := .pending
  result : Option Output := none
  error : Option String := none
  duration : ℚ := 0
deriving DecidableEq, Repr

/-- Round-half-to-even of a rational to an integer, Python's `round` tie
rule (`Rat.floor` rather than `⌊⌋` to keep the definition
kernel-reducible). -/
def roundHalfEven (q : ℚ) : ℤ :=
  if q - q.floor < 1 / 2 then q.floor
  else if 1 / 2 < q - q.floor then q.floor + 1
  else if q.floor % 2 = 0 then q.floor else q.floor + 1

/-- Python's `round(q, 1)`: round to one decimal place. -/
def round1 (q : ℚ) : ℚ := (roundHalfEven (q * 10) : ℚ) / 10

/-- The stage statuses counted by `ResearchPipeline.progress`:
`COMPLETED` or `SKIPPED`. -/
def isCounted (s : PipelineStage) : Bool :=
  s.status == .completed || s.status == .skipped

/-- Body of the `progress` property of `ResearchPipeline`: `0.0` for an
empty stage list, else `round((completed / len(stages)) * 100, 1)` where
`completed = sum(1 for s in stages if s.status in (COMPLETED, SKIPPED))`. -/
def stagesProgress (l : List PipelineStage) : ℚ :=
  if l = [] then 0
  else round1 (((l.countP isCounted : ℚ) / (l.length : ℚ)) * 100)

/-- `ResearchPipeline` from `a2a_protocol.py`. `results` is the dict of
stage outputs keyed by stage name, modelled as an insertion-ordered
association list. -/
structure ResearchPipeline where
  stages : List PipelineStage := []
  current_stage : Nat := 0
  results : List (String × Output) := []
deriving DecidableEq, Repr

/-- The `progress` property of `ResearchPipeline`. -/
def ResearchPipeline.progress (p : ResearchPipeline) : ℚ :=
  stagesProgress p.stages

/-- The `is_complete` property of `ResearchPipeline`: every stage is
`COMPLETED`, `FAILED`, or `SKIPPED`. -/
def ResearchPipeline.is_complete (p : ResearchPipeline) : Bool :=
  p.stages.all fun s =>
    s.status == .completed || s.status == .failed || s.status == .skipped

/-- Progress as the spec words it: "(stages in a terminal counted state
{completed, skipped}) / total, expressed as a percentage rounded to one
decimal", guarded for zero stages. Stated from the spec text, for
comparison with `ResearchPipeline.progress` as translated from the code. -/
def specProgress (p : ResearchPipeline) : ℚ :=
  if p.stages.length = 0 then 0
  else round1 ((((p.stages.filter fun s =>
      s.status == .completed || s.status == .skipped).length : ℚ) /
    (p.stages.length : ℚ)) * 100)

/-- `ProgressUpdate` from `a2a_protocol.py`; the optional `data` dict is
modelled by its two fields actually used by the orchestrator
(`{"duration": ...}` on stage completion, `{"total_stages": ...}` on the
final pipeline event). Wall-clock `timestamp` dropped. -/
structure ProgressUpdate where
  task_id : String
  stage_name : String
  status : StageStatus
  progress : ℚ := 0
  message : String := ""
  duration_data : Option ℚ := none
  total_stages_data : Option Nat := none
deriving DecidableEq, Repr

/-- `ResearchTask` from `a2a_protocol.py`; `completed_at` is modelled by
the flag `completed_at_set` (its value is wall-clock), `created_at`
dropped. -/
structure ResearchTask where
  task_id : String
  company_name : String
  options : List (String × String) := []
  pipeline : ResearchPipeline := {}
  status : StageStatus := .pending
  completed_at_set : Bool := false
  final_report : Option Output := none
deriving DecidableEq, Repr

/-- Outcome of an agent's `execute` coroutine: normal return of an output
dictionary, or a raised exception carrying its message string. -/
inductive ExecOutcome where
  | ok : Output → ExecOutcome
  | raised : String → ExecOutcome
deriving DecidableEq, Repr

/-- `BaseAgent.handle_request` from `base_agent.py`: wraps one `execute`
call; a normal return becomes a `COMPLETED` response carrying the output
and the elapsed duration, a raised exception is caught and becomes a
`FAILED` response with the exception's message as `error` and `output = {}`.
The function is total: no outcome of `execute` propagates. -/
def handle_request (agent_name task_id : String) (outcome : ExecOutcome)
    (duration : ℚ) : TaskResponse :=
  match outcome with
  | .ok output =>
      { task_id := task_id, agent_name := agent_name, output_data := output,
        status := .completed, duration := duration, error := none }
  | .raised msg =>
      { task_id := task_id, agent_name := agent_name,
        output_data := Output.emptyMap, status := .failed,
        duration := duration, error := some msg }

/-- The apostrophe character, kept out of string literals. -/
def apos : String := String.singleton (Char.ofNat 39)

/-- Python `str(x)` for `Optional[str]` as interpolated into f-strings. -/
def optStr : Option String → String
  | some s => s
  | none => "None"

/-- The f-string `"Agent '{agent_name}' not found"`. -/
def agentNotFoundError (agent_name : String) : String :=
  "Agent " ++ apos ++ agent_name ++ apos ++ " not found"

/-- The f-string `"Company '{company_name}' could not be validated."`. -/
def invalidCompanyMsg (company_name : String) : String :=
  "Company " ++ apos ++ company_name ++ apos ++ " could not be validated."

/-- Python dict insertion `d[k] = v`: overwrite in place if the key is
present, else append. -/
def dictInsert (m : List (String × Output)) (k : String) (v : Output) :
    List (String × Output) :=
  if (m.lookup k).isSome then
    m.map fun kv => if kv.1 = k then (k, v) else kv
  else m ++ [(k, v)]

/-- Stage set to `RUNNING` at the top of the loop body. -/
def runningStage (s : PipelineStage) : PipelineStage :=
  { s with status := .running }

/-- Stage marked failed because its agent is absent from the registry. -/
def notFoundStage (s : PipelineStage) : PipelineStage :=
  { s with status := .failed, error := some (agentNotFoundError s.agent_name) }

/-- Stage marked failed from a `FAILED` response (duration and error
copied from the response). -/
def failedStage (s : PipelineStage) (r : TaskResponse) : PipelineStage :=
  { s with status := .failed, error := r.error, duration := r.duration }

/-- Stage marked completed from a successful response (result and duration
copied from the response). -/
def completedStage (s : PipelineStage) (r : TaskResponse) : PipelineStage :=
  { s with status := .completed, result := some r.output_data,
           duration := r.duration }

/-- Stage marked `SKIPPED` during the validation abort. -/
def skipStage (s : PipelineStage) : PipelineStage :=
  { s with status := .skipped }

/-- The task snapshot persisted by `store_task`: the base task with the
pipeline's stages, current stage index, and results replaced. -/
def snap (base : ResearchTask) (stages : List PipelineStage) (idx : Nat)
    (results : List (String × Output)) : ResearchTask :=
  { base with pipeline :=
      { stages := stages, current_stage := idx, results := results } }

/-- The `ProgressUpdate` built by `_send_progress`: its `progress` field is
the task pipeline's progress at the moment of emission. -/
def mkUpdate (t : ResearchTask) (stage_name : String) (status : StageStatus)
    (message : String) : ProgressUpdate :=
  { task_id := t.task_id, stage_name := stage_name, status := status,
    progress := t.pipeline.progress, message := message }

/-- Result of one executor run: the final task object, the ordered list of
task snapshots passed to `store_task`, and the ordered list of published
`ProgressUpdate`s. -/
structure RunResult where
  task : ResearchTask
  trace : List ResearchTask
  events : List ProgressUpdate
deriving DecidableEq, Repr

/-- Prepend the two persists/events of a non-fatal loop iteration to the
result of the rest of the run. -/
def consResult (t1 t2 : ResearchTask) (e1 e2 : ProgressUpdate)
    (r : RunResult) : RunResult :=
  ⟨r.task, t1 :: t2 :: r.trace, e1 :: e2 :: r.events⟩

/-- The stage loop of `run_pipeline` in `orchestrator.py`.

`reg` is the agent registry (`AGENTS`), abstracted to which agent names
resolve; `resp` gives the `TaskResponse` obtained from the agent invoked at
loop index `i` (the try/except around `handle_request` is subsumed:
`handle_request` is total, and a synthesised exception response has the
same shape as a `FAILED` oracle response). `done` holds the already
processed stages in reverse order, `todo` the remaining ones, `results`
the pipeline results dict, `cur` the current `current_stage` value. -/
def runStages (reg : String → Bool) (resp : Nat → TaskResponse)
    (base : ResearchTask) :
    List PipelineStage → List PipelineStage → List (String × Output) →
    Nat → RunResult
  | done, [], results, cur =>
      -- loop finished: task completed, final_report from the results dict
      let stages := done.reverse
      let tFin : ResearchTask :=
        { base with
            pipeline :=
              { stages := stages, current_stage := cur, results := results },
            status := .completed, completed_at_set := true,
            final_report := results.lookup "report_generation" }
      let evFin : ProgressUpdate :=
        { mkUpdate tFin "pipeline" .completed
            "Research pipeline completed successfully." with
          total_stages_data := some stages.length }
      ⟨tFin, [tFin], [evFin]⟩
  | done, s :: rest, results, _cur =>
      let idx := done.length
      let sR := runningStage s
      let t1 := snap base (done.reverse ++ sR :: rest) idx results
      let ev1 := mkUpdate t1 s.name .running ("Starting stage: " ++ s.name)
      if reg s.agent_name = true then
        let r := resp idx
        if r.status = .failed then
          let sF := failedStage s r
          let t2 := snap base (done.reverse ++ sF :: rest) idx results
          let ev2 := mkUpdate t2 s.name .failed
            ("Stage failed: " ++ s.name ++ " - " ++ optStr r.error)
          if s.name = "validation" ∧ r.output_data.valid.getD false = false
          then
            -- fatal: validation failed; abort, nothing marked skipped
            let t3 := { t2 with status := .failed, completed_at_set := true }
            let ev3 := mkUpdate t3 s.name .failed
              "Pipeline aborted: company validation failed."
            ⟨t3, [t1, t2, t3], [ev1, ev2, ev3]⟩
          else
            consResult t1 t2 ev1 ev2
              (runStages reg resp base (sF :: done) rest results idx)
        else
          let sC := completedStage s r
          let results2 := dictInsert results s.name r.output_data
          let t2 := snap base (done.reverse ++ sC :: rest) idx results2
          let ev2 := { mkUpdate t2 s.name .completed
              ("Completed stage: " ++ s.name) with
            duration_data := some r.duration }
          if s.name = "validation" ∧ r.output_data.valid.getD true = false
          then
            -- fatal: validation succeeded but valid is explicitly false;
            -- abort and mark the remaining stages skipped
            let t3 := { snap base (done.reverse ++ sC :: rest.map skipStage)
                idx results2 with
              status := .failed, completed_at_set := true }
            let ev3 := mkUpdate t3 "validation" .failed
              (invalidCompanyMsg base.company_name)
            ⟨t3, [t1, t2, t3], [ev1, ev2, ev3]⟩
          else
            consResult t1 t2 ev1 ev2
              (runStages reg resp base (sC :: done) rest results2 idx)
      else
        -- agent missing from the registry: non-fatal, continue
        let sN := notFoundStage s
        let t2 := snap base (done.reverse ++ sN :: rest) idx results
        let ev2 := mkUpdate t2 s.name .failed
          ("Agent not found: " ++ s.agent_name)
        consResult t1 t2 ev1 ev2
          (runStages reg resp base (sN :: done) rest results idx)

/-- `run_pipeline` from `orchestrator.py`: set the task running, persist,
then run the stage loop. -/
def run_pipeline (reg : String → Bool) (resp : Nat → TaskResponse)
    (task : ResearchTask) : RunResult :=
  let t0 := { task with status := StageStatus.running }
  let r := runStages reg resp t0 [] t0.pipeline.stages t0.pipeline.results
    t0.pipeline.current_stage
  ⟨r.task, t0 :: r.trace, r.events⟩

/-- `PIPELINE_STAGES` from `orchestrator.py` (stage name, agent name). -/
def PIPELINE_STAGES : List (String × String) :=
  [("validation", "validation_agent"),
   ("sector_identification", "sector_agent"),
   ("competitor_discovery", "competitor_agent"),
   ("financial_research", "financial_agent"),
   ("deep_research", "research_agent"),
   ("sentiment_analysis", "sentiment_agent"),
   ("trend_analysis", "trend_agent"),
   ("report_generation", "report_agent")]

/-- The fresh stage list built by the `start_research` endpoint. -/
def initStages : List PipelineStage :=
  PIPELINE_STAGES.map fun p => { name := p.1, agent_name := p.2 }

/-- The fresh `ResearchTask` built by the `start_research` endpoint. -/
def newTask (task_id company_name : String) : ResearchTask :=
  { task_id := task_id, company_name := company_name,
    pipeline := { stages := initStages }, status := .pending }

/-- A fatal outcome of the validation stage's agent invocation: a `FAILED`
response whose `valid` flag is false or absent, or a successful response
whose `valid` flag is explicitly false (the two abort conditions of
`run_pipeline`). -/
def fatalValidationResponse (r : TaskResponse) : Prop :=
  if r.status = .failed then r.output_data.valid.getD false = false
  else r.output_data.valid.getD true = false

/-- Relation between two adjacent stages of a snapshot: while the earlier
stage is still `pending` or `running`, the later stage is not `running` and
not in any terminal state (so it is still `pending`). -/
def noEarlyStart (a b : PipelineStage) : Prop :=
  (a.status = .pending ∨ a.status = .running) →
    (b.status ≠ .running ∧ b.status ≠ .completed ∧
      b.status ≠ .failed ∧ b.status ≠ .skipped)

/-- Registry with every pipeline agent present (as `_register_agents`
builds it). -/
def regAll : String → Bool := fun _ => true

/-- Registry missing the validation agent. -/
def regNoValidation : String → Bool := fun a => !(a == "validation_agent")

/-- Oracle: every agent succeeds, validation returns `valid = true`. -/
def respOK : Nat → TaskResponse := fun i =>
  { task_id := "t", agent_name := "a",
    output_data := { valid := some true, rest := [("i", toString i)] },
    status := .completed, duration := 1 }

/-- Oracle: validation completes but reports `valid = false`. -/
def respInvalidCompleted : Nat → TaskResponse := fun i =>
  if i = 0 then
    { task_id := "t", agent_name := "a",
      output_data := { valid := some false }, status := .completed,
      duration := 1 }
  else respOK i

/-- Oracle: validation returns a `FAILED` response with empty output. -/
def respInvalidFailed : Nat → TaskResponse := fun i =>
  if i = 0 then
    { task_id := "t", agent_name := "a", output_data := {},
      status := .failed, duration := 1, error := some "boom" }
  else respOK i

/-- Oracle: stage 2 (a non-validation stage) fails, all others succeed. -/
def respStage2Fails : Nat → TaskResponse := fun i =>
  if i = 2 then
    { task_id := "t", agent_name := "a", output_data := {},
      status := .failed, duration := 1, error := some "boom" }
  else respOK i

/-- Oracle: every agent invocation fails. -/
def respAllFail : Nat → TaskResponse := fun _ =>
  { task_id := "t", agent_name := "a", output_data := {},
    status := .failed, duration := 1, error := some "boom" }

/-! ## Basic lemmas -/

lemma ratFloor_eq (q : ℚ) : (q.floor : ℤ) = ⌊q⌋ := by
  rw [Rat.floor_def', Rat.floor_def]

lemma lookup_append (l₁ l₂ : List (String × Output)) (k : String) :
    (l₁ ++ l₂).lookup k = ((l₁.lookup k).or (l₂.lookup k)) := by
  induction l₁ with
  | nil => simp [List.lookup]
  | cons hd tl ih =>
      by_cases h : k == hd.1
      · simp [List.lookup, h]
      · simp [List.lookup, h, ih]

lemma lookup_singleton (k a : String) (v : Output) :
    ([(a, v)] : List (String × Output)).lookup k =
      if k = a then some v else none := by
  by_cases h : k = a
  · simp [List.lookup, h]
  · have hb : (k == a) = false := by simpa using h
    simp [List.lookup, hb, h]

lemma dictInsert_absent (m : List (String × Output)) (k : String) (v : Output)
    (h : m.lookup k = none) : dictInsert m k v = m ++ [(k, v)] := by
  simp [dictInsert, h]

/-! ## Step lemmas: the four branches of one loop iteration, plus loop
completion.  Each one mirrors one control path of `run_pipeline`'s body. -/

lemma runStages_nil (reg : String → Bool) (resp : Nat → TaskResponse)
    (base : ResearchTask) (done : List PipelineStage)
    (results : List (String × Output)) (cur : Nat) :
    runStages reg resp base done [] results cur =
      let stages := done.reverse
      let tFin : ResearchTask :=
        { base with
            pipeline :=
              { stages := stages, current_stage := cur, results := results },
            status := .completed, completed_at_set := true,
            final_report := results.lookup "report_generation" }
      let evFin : ProgressUpdate :=
        { mkUpdate tFin "pipeline" .completed
            "Research pipeline completed successfully." with
          total_stages_data := some stages.length }
      ⟨tFin, [tFin], [evFin]⟩ := by
  simp [runStages]

lemma runStages_notfound (reg : String → Bool) (resp : Nat → TaskResponse)
    (base : ResearchTask) (done : List PipelineStage) (s : PipelineStage)
    (rest : List PipelineStage) (results : List (String × Output)) (cur : Nat)
    (h : reg s.agent_name = false) :
    runStages reg resp base done (s :: rest) results cur =
      let idx := done.length
      let sN := notFoundStage s
      let t1 := snap base (done.reverse ++ runningStage s :: rest) idx results
      let t2 := snap base (done.reverse ++ sN :: rest) idx results
      consResult t1 t2
        (mkUpdate t1 s.name .running ("Starting stage: " ++ s.name))
        (mkUpdate t2 s.name .failed ("Agent not found: " ++ s.agent_name))
        (runStages reg resp base (sN :: done) rest results idx) := by
  simp [runStages, h]

lemma runStages_failed_continue (reg : String → Bool)
    (resp : Nat → TaskResponse) (base : ResearchTask)
    (done : List PipelineStage) (s : PipelineStage)
    (rest : List PipelineStage) (results : List (String × Output)) (cur : Nat)
    (hreg : reg s.agent_name = true)
    (hf : (resp done.length).status = .failed)
    (hnf : ¬(s.name = "validation" ∧
      (resp done.length).output_data.valid.getD false = false)) :
    runStages reg resp base done (s :: rest) results cur =
      let idx := done.length
      let sF := failedStage s (resp idx)
      let t1 := snap base (done.reverse ++ runningStage s :: rest) idx results
      let t2 := snap base (done.reverse ++ sF :: rest) idx results
      consResult t1 t2
        (mkUpdate t1 s.name .running ("Starting stage: " ++ s.name))
        (mkUpdate t2 s.name .failed
          ("Stage failed: " ++ s.name ++ " - " ++ optStr (resp idx).error))
        (runStages reg resp base (sF :: done) rest results idx) := by
  simp [runStages, hreg, hf, hnf]

lemma runStages_failed_abort (reg : String → Bool)
    (resp : Nat → TaskResponse) (base : ResearchTask)
    (done : List PipelineStage) (s : PipelineStage)
    (rest : List PipelineStage) (results : List (String × Output)) (cur : Nat)
    (hreg : reg s.agent_name = true)
    (hf : (resp done.length).status = .failed)
    (hname : s.name = "validation")
    (hv : (resp done.length).output_data.valid.getD false = false) :
    runStages reg resp base done (s :: rest) results cur =
      let idx := done.length
      let sF := failedStage s (resp idx)
      let t1 := snap base (done.reverse ++ runningStage s :: rest) idx results
      let t2 := snap base (done.reverse ++ sF :: rest) idx results
      let t3 := { t2 with status := StageStatus.failed,
                          completed_at_set := true }
      ⟨t3, [t1, t2, t3],
        [mkUpdate t1 s.name .running ("Starting stage: " ++ s.name),
         mkUpdate t2 s.name .failed
           ("Stage failed: " ++ s.name ++ " - " ++ optStr (resp idx).error),
         mkUpdate t3 s.name .failed
           "Pipeline aborted: company validation failed."]⟩ := by
  simp [runStages, hreg, hf, hname, hv]

lemma runStages_completed_continue (reg : String → Bool)
    (resp : Nat → TaskResponse) (base : ResearchTask)
    (done : List PipelineStage) (s : PipelineStage)
    (rest : List PipelineStage) (results : List (String × Output)) (cur : Nat)
    (hreg : reg s.agent_name = true)
    (hc : ¬((resp done.length).status = .failed))
    (hnf : ¬(s.name = "validation" ∧
      (resp done.length).output_data.valid.getD true = false)) :
    runStages reg resp base done (s :: rest) results cur =
      let idx := done.length
      let sC := completedStage s (resp idx)
      let results2 := dictInsert results s.name (resp idx).output_data
      let t1 := snap base (done.reverse ++ runningStage s :: rest) idx results
      let t2 := snap base (done.reverse ++ sC :: rest) idx results2
      consResult t1 t2
        (mkUpdate t1 s.name .running ("Starting stage: " ++ s.name))
        ({ mkUpdate t2 s.name .completed ("Completed stage: " ++ s.name) with
            duration_data := some (resp idx).duration })
        (runStages reg resp base (sC :: done) rest results2 idx) := by
  simp [runStages, hreg, hc, hnf]

lemma runStages_completed_abort (reg : String → Bool)
    (resp : Nat → TaskResponse) (base : ResearchTask)
    (done : List PipelineStage) (s : PipelineStage)
    (rest : List PipelineStage) (results : List (String × Output)) (cur : Nat)
    (hreg : reg s.agent_name = true)
    (hc : ¬((resp done.length).status = .failed))
    (hname : s.name = "validation")
    (hv : (resp done.length).output_data.valid.getD true = false) :
    runStages reg resp base done (s :: rest) results cur =
      let idx := done.length
      let sC := completedStage s (resp idx)
      let results2 := dictInsert results s.name (resp idx).output_data
      let t1 := snap base (done.reverse ++ runningStage s :: rest) idx results
      let t2 := snap base (done.reverse ++ sC :: rest) idx results2
      let t3 := { snap base (done.reverse ++ sC :: rest.map skipStage)
          idx results2 with
        status := StageStatus.failed, completed_at_set := true }
      ⟨t3, [t1, t2, t3],
        [mkUpdate t1 s.name .running ("Starting stage: " ++ s.name),
         { mkUpdate t2 s.name .completed ("Completed stage: " ++ s.name) with
             duration_data := some (resp idx).duration },
         mkUpdate t3 "validation" .failed
           (invalidCompanyMsg base.company_name)]⟩ := by
  simp [runStages, hreg, hc, hname, hv]

/-! ## Monotonicity of the rounded progress percentage -/

lemma roundHalfEven_bounds (q : ℚ) :
    ⌊q⌋ ≤ roundHalfEven q ∧ roundHalfEven q ≤ ⌊q⌋ + 1 := by
  unfold roundHalfEven
  rw [ratFloor_eq q]
  split_ifs <;> omega

lemma roundHalfEven_mono {a b : ℚ} (h : a ≤ b) :
    roundHalfEven a ≤ roundHalfEven b := by
  have hfl : ⌊a⌋ ≤ ⌊b⌋ := Int.floor_mono h
  by_cases hf : (⌊a⌋ : ℤ) = ⌊b⌋
  · have hfq : ((⌊a⌋ : ℤ) : ℚ) = ((⌊b⌋ : ℤ) : ℚ) := by exact_mod_cast hf
    unfold roundHalfEven
    rw [ratFloor_eq a, ratFloor_eq b]
    split_ifs <;> try omega
    all_goals (exfalso; try linarith)
  · have h1 : ⌊a⌋ + 1 ≤ ⌊b⌋ := by omega
    have h2 := (roundHalfEven_bounds a).2
    have h3 := (roundHalfEven_bounds b).1
    omega

lemma round1_mono {a b : ℚ} (h : a ≤ b) : round1 a ≤ round1 b := by
  unfold round1
  have h10 : a * 10 ≤ b * 10 := by linarith
  have := roundHalfEven_mono h10
  have hc : ((roundHalfEven (a * 10) : ℤ) : ℚ) ≤
      ((roundHalfEven (b * 10) : ℤ) : ℚ) := by exact_mod_cast this
  linarith

lemma stagesProgress_le (l₁ l₂ : List PipelineStage)
    (hlen : l₁.length = l₂.length)
    (hc : l₁.countP isCounted ≤ l₂.countP isCounted) :
    stagesProgress l₁ ≤ stagesProgress l₂ := by
  unfold stagesProgress
  by_cases h1 : l₁ = []
  · have h2 : l₂ = [] := by
      rw [← List.length_eq_zero, ← hlen, List.length_eq_zero]; exact h1
    simp [h1, h2]
  · have h2 : l₂ ≠ [] := by
      intro h2; apply h1
      rw [← List.length_eq_zero, hlen, List.length_eq_zero]; exact h2
    rw [if_neg h1, if_neg h2]
    apply round1_mono
    have hlpos : (0 : ℚ) < (l₁.length : ℚ) := by
      have : l₁.length ≠ 0 := by simpa [List.length_eq_zero] using h1
      exact_mod_cast Nat.pos_of_ne_zero this
    rw [hlen] at hlpos ⊢
    have hcq : ((l₁.countP isCounted : ℕ) : ℚ) ≤
        ((l₂.countP isCounted : ℕ) : ℚ) := by exact_mod_cast hc
    have hdiv := (div_le_div_iff_of_pos_right hlpos).2 hcq
    exact mul_le_mul_of_nonneg_right hdiv (by norm_num : (0:ℚ) ≤ 100)

lemma stagesProgress_congr (l₁ l₂ : List PipelineStage)
    (hlen : l₁.length = l₂.length)
    (hc : l₁.countP isCounted = l₂.countP isCounted) :
    stagesProgress l₁ = stagesProgress l₂ :=
  le_antisymm (stagesProgress_le l₁ l₂ hlen hc.le)
    (stagesProgress_le l₂ l₁ hlen.symm hc.ge)

lemma countP_pending_zero (l : List PipelineStage)
    (h : ∀ s ∈ l, s.status = .pending) : l.countP isCounted = 0 :=
  List.countP_eq_zero.2 fun s hs => by simp [isCounted, h s hs]

lemma countP_middle (A r : List PipelineStage) (x : PipelineStage) :
    (A ++ x :: r).countP isCounted =
      A.countP isCounted + (if isCounted x then 1 else 0) +
        r.countP isCounted := by
  simp [List.countP_append, List.countP_cons]
  omega

/-! ## Induction lemmas over the stage loop -/

lemma reverse_cons_append (x : PipelineStage) (done rest : List PipelineStage) :
    (x :: done).reverse ++ rest = done.reverse ++ x :: rest := by
  simp [List.reverse_cons, List.append_assoc]

lemma snap_progress (base : ResearchTask) (stages : List PipelineStage)
    (idx : Nat) (results : List (String × Output)) :
    (snap base stages idx results).pipeline.progress = stagesProgress stages :=
  rfl

lemma status_update_progress (t : ResearchTask) :
    ({ t with status := StageStatus.failed, completed_at_set := true } :
        ResearchTask).pipeline.progress =
      t.pipeline.progress := rfl

lemma stagesProgress_mid_le (A r : List PipelineStage) (x y : PipelineStage)
    (h : (if isCounted x then 1 else 0) ≤ (if isCounted y then (1:ℕ) else 0)) :
    stagesProgress (A ++ x :: r) ≤ stagesProgress (A ++ y :: r) := by
  apply stagesProgress_le
  · simp
  · rw [countP_middle, countP_middle]
    omega

set_option maxHeartbeats 1000000 in
lemma runStages_progress_chain (reg : String → Bool)
    (resp : Nat → TaskResponse) (base : ResearchTask)
    (todo : List PipelineStage) :
    ∀ (done : List PipelineStage) (results : List (String × Output))
      (cur : Nat), (∀ s ∈ todo, s.status = .pending) →
      List.Chain' (· ≤ ·) (stagesProgress (done.reverse ++ todo) ::
        (runStages reg resp base done todo results cur).trace.map
          (fun t => t.pipeline.progress)) := by
  induction todo with
  | nil =>
      intro done results cur _
      rw [runStages_nil]
      simp [List.chain'_cons, ResearchPipeline.progress]
  | cons s rest ih =>
      intro done results cur hp
      have hps : s.status = .pending := hp s (by simp)
      have hpr : ∀ x ∈ rest, x.status = .pending := fun x hx =>
        hp x (by simp [hx])
      have hRun : (if isCounted (runningStage s) then (1:ℕ) else 0) =
          (if isCounted s then 1 else 0) := by
        simp [isCounted, runningStage, hps]
      by_cases hreg : reg s.agent_name = true
      · by_cases hf : (resp done.length).status = .failed
        · by_cases hfatal : s.name = "validation" ∧
            (resp done.length).output_data.valid.getD false = false
          · rw [runStages_failed_abort reg resp base done s rest results cur
              hreg hf hfatal.1 hfatal.2]
            simp only [List.map_cons, List.map_nil, List.chain'_cons,
              snap_progress, status_update_progress]
            refine ⟨?_, ?_, ?_, List.chain'_singleton _⟩
            · exact stagesProgress_mid_le _ _ _ _ (by simp [isCounted, runningStage, hps])
            · exact stagesProgress_mid_le _ _ _ _ (by simp [isCounted, runningStage, failedStage, hps])
            · simp [ResearchPipeline.progress, snap]
          · rw [runStages_failed_continue reg resp base done s rest results cur
              hreg hf hfatal]
            have ihc := ih (failedStage s (resp done.length) :: done) results
              done.length hpr
            rw [reverse_cons_append] at ihc
            simp only [consResult, List.map_cons, List.chain'_cons,
              snap_progress] at ihc ⊢
            refine ⟨?_, ?_, ihc⟩
            · exact stagesProgress_mid_le _ _ _ _ (by simp [isCounted, runningStage, hps])
            · exact stagesProgress_mid_le _ _ _ _ (by simp [isCounted, runningStage, failedStage, hps])
        · by_cases hfatal : s.name = "validation" ∧
            (resp done.length).output_data.valid.getD true = false
          · rw [runStages_completed_abort reg resp base done s rest results cur
              hreg hf hfatal.1 hfatal.2]
            simp only [List.map_cons, List.map_nil, List.chain'_cons,
              snap_progress, status_update_progress]
            refine ⟨?_, ?_, ?_, List.chain'_singleton _⟩
            · exact stagesProgress_mid_le _ _ _ _ (by simp [isCounted, runningStage, hps])
            · exact stagesProgress_mid_le _ _ _ _ (by simp [isCounted, runningStage, completedStage, hps])
            · apply stagesProgress_le
              · simp
              · rw [countP_middle, countP_middle]
                have h1 : rest.countP isCounted = 0 := countP_pending_zero rest hpr
                have h2 : (rest.map skipStage).countP isCounted = rest.length := by
                  rw [List.countP_map, List.countP_eq_length]
                  intro a _
                  simp [isCounted, skipStage]
                rw [h1, h2]
                omega
          · rw [runStages_completed_continue reg resp base done s rest results
              cur hreg hf hfatal]
            have ihc := ih (completedStage s (resp done.length) :: done)
              (dictInsert results s.name (resp done.length).output_data)
              done.length hpr
            rw [reverse_cons_append] at ihc
            simp only [consResult, List.map_cons, List.chain'_cons,
              snap_progress] at ihc ⊢
            refine ⟨?_, ?_, ihc⟩
            · exact stagesProgress_mid_le _ _ _ _ (by simp [isCounted, runningStage, hps])
            · exact stagesProgress_mid_le _ _ _ _ (by simp [isCounted, runningStage, completedStage, hps])
      · rw [runStages_notfound reg resp base done s rest results cur
          (by simpa using hreg)]
        have ihc := ih (notFoundStage s :: done) results done.length hpr
        rw [reverse_cons_append] at ihc
        simp only [consResult, List.map_cons, List.chain'_cons,
          snap_progress] at ihc ⊢
        refine ⟨?_, ?_, ihc⟩
        · exact stagesProgress_mid_le _ _ _ _ (by simp [isCounted, runningStage, hps])
        · exact stagesProgress_mid_le _ _ _ _ (by simp [isCounted, runningStage, notFoundStage, hps])

/-! ## Sequencing invariant over persisted snapshots -/

lemma snap_stages (base : ResearchTask) (stages : List PipelineStage)
    (idx : Nat) (results : List (String × Output)) :
    (snap base stages idx results).pipeline.stages = stages := rfl

lemma status_update_stages (t : ResearchTask) :
    ({ t with status := StageStatus.failed, completed_at_set := true } :
        ResearchTask).pipeline.stages = t.pipeline.stages := rfl

lemma noEarlyStart_of_left_terminal {a b : PipelineStage}
    (h : a.status = .completed ∨ a.status = .failed ∨ a.status = .skipped) :
    noEarlyStart a b := by
  intro hab
  rcases h with h | h | h <;> rcases hab with h' | h' <;> simp [h] at h'

lemma noEarlyStart_of_right_pending {a b : PipelineStage}
    (h : b.status = .pending) : noEarlyStart a b := by
  intro _; simp [h]

lemma chain'_terminal_list (l : List PipelineStage)
    (h : ∀ a ∈ l, a.status = .completed ∨ a.status = .failed ∨
      a.status = .skipped) : List.Chain' noEarlyStart l := by
  induction l with
  | nil => simp
  | cons a l ih =>
      rw [List.chain'_cons']
      exact ⟨fun b _ => noEarlyStart_of_left_terminal (h a (by simp)),
        ih fun x hx => h x (by simp [hx])⟩

lemma chain'_append_terminal (A l : List PipelineStage)
    (hA : ∀ a ∈ A, a.status = .completed ∨ a.status = .failed ∨
      a.status = .skipped)
    (hl : List.Chain' noEarlyStart l) :
    List.Chain' noEarlyStart (A ++ l) := by
  induction A with
  | nil => simpa
  | cons a A ih =>
      rw [List.cons_append, List.chain'_cons']
      exact ⟨fun b _ => noEarlyStart_of_left_terminal (hA a (by simp)),
        ih fun x hx => hA x (by simp [hx])⟩

lemma chain'_cons_pending (x : PipelineStage) (l : List PipelineStage)
    (h : ∀ s ∈ l, s.status = .pending) :
    List.Chain' noEarlyStart (x :: l) := by
  rw [List.chain'_cons']
  constructor
  · intro b hb
    exact noEarlyStart_of_right_pending (h b (List.mem_of_mem_head? hb))
  · induction l with
    | nil => simp
    | cons a l ih =>
        rw [List.chain'_cons']
        refine ⟨fun b hb => noEarlyStart_of_right_pending
          (h b (by simp [List.mem_of_mem_head? hb])), ?_⟩
        exact ih fun s hs => h s (by simp [hs])

lemma chain'_completed_skipped (x : PipelineStage) (l : List PipelineStage)
    (hx : x.status = .completed) (h : ∀ s ∈ l, s.status = .skipped) :
    List.Chain' noEarlyStart (x :: l) := by
  rw [List.chain'_cons']
  constructor
  · intro b _
    exact noEarlyStart_of_left_terminal (Or.inl hx)
  · exact chain'_terminal_list l fun a ha => Or.inr (Or.inr (h a ha))

lemma runStages_seq (reg : String → Bool) (resp : Nat → TaskResponse)
    (base : ResearchTask) (todo : List PipelineStage) :
    ∀ (done : List PipelineStage) (results : List (String × Output))
      (cur : Nat),
      (∀ d ∈ done, d.status = .completed ∨ d.status = .failed) →
      (∀ s ∈ todo, s.status = .pending) →
      ∀ t ∈ (runStages reg resp base done todo results cur).trace,
        List.Chain' noEarlyStart t.pipeline.stages := by
  induction todo with
  | nil =>
      intro done results cur hdone _ t ht
      rw [runStages_nil] at ht
      simp only [List.mem_singleton] at ht
      subst ht
      exact chain'_terminal_list _ fun a ha => by
        rcases hdone a (List.mem_reverse.1 ha) with h | h
        · exact Or.inl h
        · exact Or.inr (Or.inl h)
  | cons s rest ih =>
      intro done results cur hdone hp t ht
      have hps : s.status = .pending := hp s (by simp)
      have hpr : ∀ x ∈ rest, x.status = .pending := fun x hx =>
        hp x (by simp [hx])
      have hterm : ∀ a ∈ done.reverse, a.status = .completed ∨
          a.status = .failed ∨ a.status = .skipped := fun a ha => by
        rcases hdone a (List.mem_reverse.1 ha) with h | h
        · exact Or.inl h
        · exact Or.inr (Or.inl h)
      by_cases hreg : reg s.agent_name = true
      · by_cases hf : (resp done.length).status = .failed
        · by_cases hfatal : s.name = "validation" ∧
            (resp done.length).output_data.valid.getD false = false
          · rw [runStages_failed_abort reg resp base done s rest results cur
              hreg hf hfatal.1 hfatal.2] at ht
            simp only [List.mem_cons, List.mem_singleton,
              List.not_mem_nil, or_false] at ht
            rcases ht with rfl | rfl | rfl
            · exact chain'_append_terminal _ _ hterm
                (chain'_cons_pending _ _ hpr)
            · exact chain'_append_terminal _ _ hterm
                (chain'_cons_pending _ _ hpr)
            · rw [status_update_stages, snap_stages]
              exact chain'_append_terminal _ _ hterm
                (chain'_cons_pending _ _ hpr)
          · rw [runStages_failed_continue reg resp base done s rest results
              cur hreg hf hfatal] at ht
            simp only [consResult, List.mem_cons] at ht
            rcases ht with rfl | rfl | hmem
            · exact chain'_append_terminal _ _ hterm
                (chain'_cons_pending _ _ hpr)
            · exact chain'_append_terminal _ _ hterm
                (chain'_cons_pending _ _ hpr)
            · exact ih (failedStage s (resp done.length) :: done) results
                done.length
                (by intro d hd
                    rcases List.mem_cons.1 hd with rfl | hd
                    · exact Or.inr rfl
                    · exact hdone d hd)
                hpr t hmem
        · by_cases hfatal : s.name = "validation" ∧
            (resp done.length).output_data.valid.getD true = false
          · rw [runStages_completed_abort reg resp base done s rest results
              cur hreg hf hfatal.1 hfatal.2] at ht
            simp only [List.mem_cons, List.mem_singleton,
              List.not_mem_nil, or_false] at ht
            rcases ht with rfl | rfl | rfl
            · exact chain'_append_terminal _ _ hterm
                (chain'_cons_pending _ _ hpr)
            · exact chain'_append_terminal _ _ hterm
                (chain'_cons_pending _ _ hpr)
            · rw [status_update_stages, snap_stages]
              refine chain'_append_terminal _ _ hterm
                (chain'_completed_skipped _ _ rfl ?_)
              intro a ha
              rcases List.mem_map.1 ha with ⟨b, _, rfl⟩
              rfl
          · rw [runStages_completed_continue reg resp base done s rest
              results cur hreg hf hfatal] at ht
            simp only [consResult, List.mem_cons] at ht
            rcases ht with rfl | rfl | hmem
            · exact chain'_append_terminal _ _ hterm
                (chain'_cons_pending _ _ hpr)
            · exact chain'_append_terminal _ _ hterm
                (chain'_cons_pending _ _ hpr)
            · exact ih (completedStage s (resp done.length) :: done)
                (dictInsert results s.name (resp done.length).output_data)
                done.length
                (by intro d hd
                    rcases List.mem_cons.1 hd with rfl | hd
                    · exact Or.inl rfl
                    · exact hdone d hd)
                hpr t hmem
      · rw [runStages_notfound reg resp base done s rest results cur
          (by simpa using hreg)] at ht
        simp only [consResult, List.mem_cons] at ht
        rcases ht with rfl | rfl | hmem
        · exact chain'_append_terminal _ _ hterm
            (chain'_cons_pending _ _ hpr)
        · exact chain'_append_terminal _ _ hterm
            (chain'_cons_pending _ _ hpr)
        · exact ih (notFoundStage s :: done) results done.length
            (by intro d hd
                rcases List.mem_cons.1 hd with rfl | hd
                · exact Or.inr rfl
                · exact hdone d hd)
            hpr t hmem

/-! ## Bound on the current stage index -/

lemma runStages_bound (reg : String → Bool) (resp : Nat → TaskResponse)
    (base : ResearchTask) (todo : List PipelineStage) :
    ∀ (done : List PipelineStage) (results : List (String × Output))
      (cur : Nat),
      ∀ t ∈ (runStages reg resp base done todo results cur).trace,
        t.status = .running →
          t.pipeline.current_stage < t.pipeline.stages.length := by
  induction todo with
  | nil =>
      intro done results cur t ht
      rw [runStages_nil] at ht
      simp only [List.mem_singleton] at ht
      subst ht
      intro h
      exact absurd h (by simp)
  | cons s rest ih =>
      intro done results cur t ht
      have hlen : ∀ mid : PipelineStage, ∀ tail : List PipelineStage,
          done.length < (done.reverse ++ mid :: tail).length := by
        intro mid tail; simp
      by_cases hreg : reg s.agent_name = true
      · by_cases hf : (resp done.length).status = .failed
        · by_cases hfatal : s.name = "validation" ∧
            (resp done.length).output_data.valid.getD false = false
          · rw [runStages_failed_abort reg resp base done s rest results cur
              hreg hf hfatal.1 hfatal.2] at ht
            simp only [List.mem_cons, List.mem_singleton,
              List.not_mem_nil, or_false] at ht
            rcases ht with rfl | rfl | rfl
            · exact fun _ => hlen _ _
            · exact fun _ => hlen _ _
            · intro h; exact absurd h (by simp)
          · rw [runStages_failed_continue reg resp base done s rest results
              cur hreg hf hfatal] at ht
            simp only [consResult, List.mem_cons] at ht
            rcases ht with rfl | rfl | hmem
            · exact fun _ => hlen _ _
            · exact fun _ => hlen _ _
            · exact ih _ _ _ t hmem
        · by_cases hfatal : s.name = "validation" ∧
            (resp done.length).output_data.valid.getD true = false
          · rw [runStages_completed_abort reg resp base done s rest results
              cur hreg hf hfatal.1 hfatal.2] at ht
            simp only [List.mem_cons, List.mem_singleton,
              List.not_mem_nil, or_false] at ht
            rcases ht with rfl | rfl | rfl
            · exact fun _ => hlen _ _
            · exact fun _ => hlen _ _
            · intro h; exact absurd h (by simp)
          · rw [runStages_completed_continue reg resp base done s rest
              results cur hreg hf hfatal] at ht
            simp only [consResult, List.mem_cons] at ht
            rcases ht with rfl | rfl | hmem
            · exact fun _ => hlen _ _
            · exact fun _ => hlen _ _
            · exact ih _ _ _ t hmem
      · rw [runStages_notfound reg resp base done s rest results cur
          (by simpa using hreg)] at ht
        simp only [consResult, List.mem_cons] at ht
        rcases ht with rfl | rfl | hmem
        · exact fun _ => hlen _ _
        · exact fun _ => hlen _ _
        · exact ih _ _ _ t hmem

/-! ## The non-fatal run completes the task -/

lemma getLast?_cons_of_getLast? {α : Type} (a : α) (l : List α) (x : α)
    (h : l.getLast? = some x) : (a :: l).getLast? = some x := by
  cases l with
  | nil => simp at h
  | cons b t => rw [List.getLast?_cons_cons]; exact h

lemma runStages_complete (reg : String → Bool) (resp : Nat → TaskResponse)
    (base : ResearchTask) (todo : List PipelineStage) :
    ∀ (done : List PipelineStage) (results : List (String × Output))
      (cur : Nat),
      (∀ s ∈ todo, s.name ≠ "validation") →
      (∀ s ∈ todo, s.result = none) →
      (∀ s ∈ todo, results.lookup s.name = none) →
      (todo.map fun s => s.name).Nodup →
      (∀ s ∈ todo, ∀ d ∈ done, s.name ≠ d.name) →
      (∀ d ∈ done, results.lookup d.name = d.result) →
      (runStages reg resp base done todo results cur).task.status =
          .completed ∧
      (runStages reg resp base done todo results cur).task.completed_at_set =
          true ∧
      (runStages reg resp base done todo results cur).task.final_report =
        (runStages reg resp base done todo results
            cur).task.pipeline.results.lookup "report_generation" ∧
      ((runStages reg resp base done todo results
          cur).task.pipeline.stages.map fun s => s.name) =
        (done.reverse.map fun s => s.name) ++ (todo.map fun s => s.name) ∧
      (∀ s ∈ (runStages reg resp base done todo results
          cur).task.pipeline.stages,
        (runStages reg resp base done todo results
            cur).task.pipeline.results.lookup s.name = s.result) ∧
      (runStages reg resp base done todo results cur).trace.getLast? =
        some (runStages reg resp base done todo results cur).task ∧
      (runStages reg resp base done todo results cur).events.getLast?.map
          (fun e => (e.stage_name, e.status, e.total_stages_data)) =
        some ("pipeline", StageStatus.completed,
          some (done.length + todo.length)) := by
  induction todo with
  | nil =>
      intro done results cur _ _ _ _ _ hdone
      rw [runStages_nil]
      refine ⟨rfl, rfl, rfl, by simp, ?_, by simp, by simp [mkUpdate]⟩
      intro s hs
      exact hdone s (List.mem_reverse.1 hs)
  | cons s rest ih =>
      intro done results cur hv hres habs hnodup hdisj hdone
      have hvs : s.name ≠ "validation" := hv s (by simp)
      have hvr : ∀ x ∈ rest, x.name ≠ "validation" := fun x hx =>
        hv x (by simp [hx])
      have hresr : ∀ x ∈ rest, x.result = none := fun x hx =>
        hres x (by simp [hx])
      have hnodupr : (rest.map fun s => s.name).Nodup :=
        (List.nodup_cons.1 (by simpa using hnodup)).2
      have hnotmem : s.name ∉ rest.map fun s => s.name :=
        (List.nodup_cons.1 (by simpa using hnodup)).1
      have hner : ∀ x ∈ rest, x.name ≠ s.name := by
        intro x hx hEq
        exact hnotmem (hEq ▸ List.mem_map_of_mem _ hx)
      by_cases hreg : reg s.agent_name = true
      · by_cases hf : (resp done.length).status = .failed
        · -- FAILED response on a non-validation stage: continue
          have hfatal : ¬(s.name = "validation" ∧
              (resp done.length).output_data.valid.getD false = false) :=
            fun h => hvs h.1
          rw [runStages_failed_continue reg resp base done s rest results cur
            hreg hf hfatal]
          have ihc := ih (failedStage s (resp done.length) :: done) results
            done.length hvr hresr
            (fun x hx => habs x (by simp [hx])) hnodupr
            (by intro x hx d hd
                rcases List.mem_cons.1 hd with rfl | hd
                · exact hner x hx
                · exact hdisj x (by simp [hx]) d hd)
            (by intro d hd
                rcases List.mem_cons.1 hd with rfl | hd
                · show results.lookup s.name = s.result
                  rw [habs s (by simp), hres s (by simp)]
                · exact hdone d hd)
          simp only [consResult] at ihc ⊢
          refine ⟨ihc.1, ihc.2.1, ihc.2.2.1, ?_, ihc.2.2.2.2.1,
            getLast?_cons_of_getLast? _ _ _
              (getLast?_cons_of_getLast? _ _ _ ihc.2.2.2.2.2.1), ?_⟩
          · rw [ihc.2.2.2.1]
            simp [failedStage, List.reverse_cons, List.append_assoc]
          · rcases hevl : (runStages reg resp base
                (failedStage s (resp done.length) :: done) rest results
                done.length).events.getLast? with _ | ev
            · rw [hevl] at ihc
              simp at ihc
            · rw [getLast?_cons_of_getLast? _ _ _
                (getLast?_cons_of_getLast? _ _ _ hevl)]
              rw [hevl] at ihc
              have harith : done.length + (s :: rest).length =
                  (failedStage s (resp done.length) :: done).length +
                    rest.length := by
                simp
                omega
              rw [harith]
              exact ihc.2.2.2.2.2.2
        · -- successful response on a non-validation stage: continue
          have hfatal : ¬(s.name = "validation" ∧
              (resp done.length).output_data.valid.getD true = false) :=
            fun h => hvs h.1
          rw [runStages_completed_continue reg resp base done s rest results
            cur hreg hf hfatal]
          have hins : dictInsert results s.name (resp done.length).output_data
              = results ++ [(s.name, (resp done.length).output_data)] :=
            dictInsert_absent results s.name _ (habs s (by simp))
          have ihc := ih (completedStage s (resp done.length) :: done)
            (dictInsert results s.name (resp done.length).output_data)
            done.length hvr hresr
            (by intro x hx
                rw [hins, lookup_append, habs x (by simp [hx]),
                  lookup_singleton]
                simp [hner x hx])
            hnodupr
            (by intro x hx d hd
                rcases List.mem_cons.1 hd with rfl | hd
                · exact hner x hx
                · exact hdisj x (by simp [hx]) d hd)
            (by intro d hd
                rcases List.mem_cons.1 hd with rfl | hd
                · show (dictInsert results s.name
                      (resp done.length).output_data).lookup s.name =
                    (completedStage s (resp done.length)).result
                  rw [hins, lookup_append, habs s (by simp),
                    lookup_singleton]
                  simp [completedStage]
                · rw [hins, lookup_append, lookup_singleton]
                  have hd' : d.name ≠ s.name :=
                    fun hEq => hdisj s (by simp) d hd hEq.symm
                  simp [hd']
                  exact hdone d hd)
          simp only [consResult] at ihc ⊢
          refine ⟨ihc.1, ihc.2.1, ihc.2.2.1, ?_, ihc.2.2.2.2.1,
            getLast?_cons_of_getLast? _ _ _
              (getLast?_cons_of_getLast? _ _ _ ihc.2.2.2.2.2.1), ?_⟩
          · rw [ihc.2.2.2.1]
            simp [completedStage, List.reverse_cons, List.append_assoc]
          · rcases hevl : (runStages reg resp base
                (completedStage s (resp done.length) :: done) rest
                (dictInsert results s.name (resp done.length).output_data)
                done.length).events.getLast? with _ | ev
            · rw [hevl] at ihc
              simp at ihc
            · rw [getLast?_cons_of_getLast? _ _ _
                (getLast?_cons_of_getLast? _ _ _ hevl)]
              rw [hevl] at ihc
              have harith : done.length + (s :: rest).length =
                  (completedStage s (resp done.length) :: done).length +
                    rest.length := by
                simp
                omega
              rw [harith]
              exact ihc.2.2.2.2.2.2
      · -- agent not found: continue
        rw [runStages_notfound reg resp base done s rest results cur
          (by simpa using hreg)]
        have ihc := ih (notFoundStage s :: done) results done.length hvr
          hresr (fun x hx => habs x (by simp [hx])) hnodupr
          (by intro x hx d hd
              rcases List.mem_cons.1 hd with rfl | hd
              · exact hner x hx
              · exact hdisj x (by simp [hx]) d hd)
          (by intro d hd
              rcases List.mem_cons.1 hd with rfl | hd
              · show results.lookup s.name = s.result
                rw [habs s (by simp), hres s (by simp)]
              · exact hdone d hd)
        simp only [consResult] at ihc ⊢
        refine ⟨ihc.1, ihc.2.1, ihc.2.2.1, ?_, ihc.2.2.2.2.1,
          getLast?_cons_of_getLast? _ _ _
            (getLast?_cons_of_getLast? _ _ _ ihc.2.2.2.2.2.1), ?_⟩
        · rw [ihc.2.2.2.1]
          simp [notFoundStage, List.reverse_cons, List.append_assoc]
        · rcases hevl : (runStages reg resp base (notFoundStage s :: done)
              rest results done.length).events.getLast? with _ | ev
          · rw [hevl] at ihc
            simp at ihc
          · rw [getLast?_cons_of_getLast? _ _ _
              (getLast?_cons_of_getLast? _ _ _ hevl)]
            rw [hevl] at ihc
            have harith : done.length + (s :: rest).length =
                (notFoundStage s :: done).length + rest.length := by
              simp
              omega
            rw [harith]
            exact ihc.2.2.2.2.2.2

/-! ## Claim theorems -/

/-- C4: for every agent and request, a raised failure inside `execute` is
caught by the Request Handler and becomes a failed `TaskResponse` with the
failure's message as `error` and the empty map as output — it never
propagates (the handler is a total function); a normal return becomes a
completed `TaskResponse` carrying the output and the elapsed duration. -/
theorem handle_request_uniform_error_capture (nm tid msg : String)
    (out : Output) (d : ℚ) :
    (handle_request nm tid (.raised msg) d).status = .failed ∧
    (handle_request nm tid (.raised msg) d).error = some msg ∧
    (handle_request nm tid (.raised msg) d).output_data = Output.emptyMap ∧
    (handle_request nm tid (.raised msg) d).duration = d ∧
    (handle_request nm tid (.ok out) d).status = .completed ∧
    (handle_request nm tid (.ok out) d).output_data = out ∧
    (handle_request nm tid (.ok out) d).duration = d ∧
    (handle_request nm tid (.ok out) d).error = none :=
  ⟨rfl, rfl, rfl, rfl, rfl, rfl, rfl, rfl⟩

/-- C7: `progress` equals the spec's description (stages in {completed,
skipped} over total, as a percentage rounded to one decimal; failed stages
count no more than pending ones), and `is_complete` holds exactly when
every stage is completed, failed, or skipped. -/
theorem progress_and_is_complete_formulas (p : ResearchPipeline) :
    p.progress = specProgress p ∧
    (p.is_complete = true ↔ ∀ s ∈ p.stages,
      s.status = .completed ∨ s.status = .failed ∨ s.status = .skipped) ∧
    p.progress = ResearchPipeline.progress
      { p with stages := p.stages.map fun s =>
          if s.status = .failed then { s with status := .pending } else s } := by
  refine ⟨?_, ?_, ?_⟩
  · unfold ResearchPipeline.progress stagesProgress specProgress
    by_cases h : p.stages = []
    · simp [h]
    · have hlen : ¬(p.stages.length = 0) := by
        simpa [List.length_eq_zero] using h
      rw [if_neg h, if_neg hlen, List.countP_eq_length_filter]
      rfl
  · simp only [ResearchPipeline.is_complete, List.all_eq_true,
      Bool.or_eq_true, beq_iff_eq]
    constructor
    · intro h s hs
      rcases h s hs with (h' | h') | h'
      · exact Or.inl h'
      · exact Or.inr (Or.inl h')
      · exact Or.inr (Or.inr h')
    · intro h s hs
      rcases h s hs with h' | h' | h'
      · exact Or.inl (Or.inl h')
      · exact Or.inl (Or.inr h')
      · exact Or.inr h'
  · show stagesProgress p.stages = stagesProgress _
    apply stagesProgress_congr
    · simp
    · rw [List.countP_map]
      apply List.countP_congr
      intro s _
      by_cases h : s.status = .failed <;>
        simp [isCounted, Function.comp, h]

/-- C10: on a pipeline with an empty stage list, `progress` is `0.0`
rather than a division failure (the division is guarded, and the Lean
model is a total function). -/
theorem progress_total_on_empty (p : ResearchPipeline)
    (h : p.stages = []) : p.progress = 0 := by
  simp [ResearchPipeline.progress, stagesProgress, h]

/-- Witness for C10 at the concrete empty pipeline. -/
theorem progress_total_on_empty_witness :
    ({} : ResearchPipeline).stages = [] ∧
    ({} : ResearchPipeline).progress = 0 :=
  ⟨rfl, progress_total_on_empty {} rfl⟩

/-- C6: when a stage's agent is missing from the registry, the executor
marks that stage failed with the worker-not-found error, persists that
snapshot, publishes a failed event, and the run continues as the run of the
remaining stages — no name is special-cased, so this holds even for the
validation stage and never aborts the pipeline. -/
theorem missing_agent_is_nonfatal (reg : String → Bool)
    (resp : Nat → TaskResponse) (base : ResearchTask)
    (done : List PipelineStage) (s : PipelineStage)
    (rest : List PipelineStage) (results : List (String × Output))
    (cur : Nat) (h : reg s.agent_name = false) :
    (runStages reg resp base done (s :: rest) results cur).task =
      (runStages reg resp base (notFoundStage s :: done) rest results
        done.length).task ∧
    (runStages reg resp base done (s :: rest) results cur).trace =
      snap base (done.reverse ++ runningStage s :: rest) done.length
          results ::
        snap base (done.reverse ++ notFoundStage s :: rest) done.length
          results ::
        (runStages reg resp base (notFoundStage s :: done) rest results
          done.length).trace ∧
    (runStages reg resp base done (s :: rest) results cur).events =
      mkUpdate (snap base (done.reverse ++ runningStage s :: rest)
          done.length results) s.name .running
          ("Starting stage: " ++ s.name) ::
        mkUpdate (snap base (done.reverse ++ notFoundStage s :: rest)
          done.length results) s.name .failed
          ("Agent not found: " ++ s.agent_name) ::
        (runStages reg resp base (notFoundStage s :: done) rest results
          done.length).events ∧
    (notFoundStage s).status = .failed ∧
    (notFoundStage s).error = some (agentNotFoundError s.agent_name) := by
  rw [runStages_notfound reg resp base done s rest results cur h]
  exact ⟨rfl, rfl, rfl, rfl, rfl⟩

/-- Witness for C6, at the validation stage itself with a registry missing
the validation agent. -/
theorem missing_agent_is_nonfatal_witness :
    regNoValidation
        ({ name := "validation", agent_name := "validation_agent" } :
          PipelineStage).agent_name = false ∧
    (runStages regNoValidation respOK (newTask "t" "Acme") []
        [{ name := "validation", agent_name := "validation_agent" }] []
        0).task =
      (runStages regNoValidation respOK (newTask "t" "Acme")
        [notFoundStage
          { name := "validation", agent_name := "validation_agent" }] [] []
        0).task ∧
    (notFoundStage
        ({ name := "validation", agent_name := "validation_agent" } :
          PipelineStage)).status = .failed := by
  refine ⟨by decide, ?_, ?_⟩
  · exact (missing_agent_is_nonfatal regNoValidation respOK
      (newTask "t" "Acme") []
      { name := "validation", agent_name := "validation_agent" } [] [] 0
      (by decide)).1
  · exact (missing_agent_is_nonfatal regNoValidation respOK
      (newTask "t" "Acme") []
      { name := "validation", agent_name := "validation_agent" } [] [] 0
      (by decide)).2.2.2.1

/-- C5: a `FAILED` response at a non-validation stage records the stage as
failed with the response's error, persists, publishes a failed event, and
the run continues with the next stage; and (concretely) a task whose stage
2 fails still runs the remaining stages and finishes with overall status
`completed`. -/
theorem nonvalidation_failure_is_nonfatal (reg : String → Bool)
    (resp : Nat → TaskResponse) (base : ResearchTask)
    (done : List PipelineStage) (s : PipelineStage)
    (rest : List PipelineStage) (results : List (String × Output))
    (cur : Nat) (hname : s.name ≠ "validation")
    (hreg : reg s.agent_name = true)
    (hf : (resp done.length).status = .failed) :
    (runStages reg resp base done (s :: rest) results cur).task =
      (runStages reg resp base (failedStage s (resp done.length) :: done)
        rest results done.length).task ∧
    (runStages reg resp base done (s :: rest) results cur).trace =
      snap base (done.reverse ++ runningStage s :: rest) done.length
          results ::
        snap base (done.reverse ++ failedStage s (resp done.length) :: rest)
          done.length results ::
        (runStages reg resp base (failedStage s (resp done.length) :: done)
          rest results done.length).trace ∧
    (runStages reg resp base done (s :: rest) results cur).events =
      mkUpdate (snap base (done.reverse ++ runningStage s :: rest)
          done.length results) s.name .running
          ("Starting stage: " ++ s.name) ::
        mkUpdate (snap base
          (done.reverse ++ failedStage s (resp done.length) :: rest)
          done.length results) s.name .failed
          ("Stage failed: " ++ s.name ++ " - " ++
            optStr (resp done.length).error) ::
        (runStages reg resp base (failedStage s (resp done.length) :: done)
          rest results done.length).events ∧
    (failedStage s (resp done.length)).status = .failed ∧
    (failedStage s (resp done.length)).error = (resp done.length).error ∧
    (run_pipeline regAll respStage2Fails (newTask "t" "Acme")).task.status =
      .completed ∧
    ((run_pipeline regAll respStage2Fails
        (newTask "t" "Acme")).task.pipeline.stages.countP
      fun st => st.status == .failed) = 1 := by
  have hfatal : ¬(s.name = "validation" ∧
      (resp done.length).output_data.valid.getD false = false) :=
    fun hh => hname hh.1
  rw [runStages_failed_continue reg resp base done s rest results cur
    hreg hf hfatal]
  refine ⟨rfl, rfl, rfl, rfl, rfl, by decide, by decide⟩

/-- Witness for C5 at a concrete non-validation stage with a concrete
always-failing oracle. -/
theorem nonvalidation_failure_is_nonfatal_witness :
    ({ name := "sector_identification", agent_name := "sector_agent" } :
        PipelineStage).name ≠ "validation" ∧
    regAll ({ name := "sector_identification", agent_name := "sector_agent" } : PipelineStage).agent_name = true ∧
    (respAllFail (List.length ([] : List PipelineStage))).status = .failed ∧
    (runStages regAll respAllFail (newTask "t" "Acme") []
        [{ name := "sector_identification", agent_name := "sector_agent" }]
        [] 0).task =
      (runStages regAll respAllFail (newTask "t" "Acme")
        [failedStage
          { name := "sector_identification", agent_name := "sector_agent" }
          (respAllFail (List.length ([] : List PipelineStage)))] [] []
        (List.length ([] : List PipelineStage))).task ∧
    (failedStage
        ({ name := "sector_identification", agent_name := "sector_agent" } :
          PipelineStage)
        (respAllFail (List.length ([] : List PipelineStage)))).status =
      .failed := by
  refine ⟨by decide, by decide, by decide, ?_, ?_⟩
  · exact (nonvalidation_failure_is_nonfatal regAll respAllFail
      (newTask "t" "Acme") []
      { name := "sector_identification", agent_name := "sector_agent" }
      [] [] 0 (by decide) (by decide) (by decide)).1
  · exact (nonvalidation_failure_is_nonfatal regAll respAllFail
      (newTask "t" "Acme") []
      { name := "sector_identification", agent_name := "sector_agent" }
      [] [] 0 (by decide) (by decide) (by decide)).2.2.2.1

/-- C1: on a freshly created task, when the validation stage's invocation
returns a completed response whose `valid` flag is explicitly false, the
executor marks the task failed, marks every stage after the validation
stage skipped, persists the final state, publishes a final failed event,
and terminates; in no persisted state is any stage after the validation
stage running or completed. -/
theorem validation_invalid_aborts_and_skips (reg : String → Bool)
    (resp : Nat → TaskResponse) (tid nm : String)
    (hreg : reg "validation_agent" = true)
    (hst : (resp 0).status = .completed)
    (hval : (resp 0).output_data.valid = some false) :
    (run_pipeline reg resp (newTask tid nm)).task.status = .failed ∧
    (run_pipeline reg resp (newTask tid nm)).task.completed_at_set = true ∧
    (((run_pipeline reg resp (newTask tid nm)).task.pipeline.stages.drop
        1).all fun st => st.status == .skipped) = true ∧
    (run_pipeline reg resp (newTask tid nm)).trace.getLast? =
      some (run_pipeline reg resp (newTask tid nm)).task ∧
    ((run_pipeline reg resp (newTask tid nm)).events.getLast?.map
        fun e => (e.stage_name, e.status, e.message)) =
      some ("validation", StageStatus.failed, invalidCompanyMsg nm) ∧
    ∀ t ∈ (run_pipeline reg resp (newTask tid nm)).trace,
      ((t.pipeline.stages.drop 1).all fun st =>
        !(st.status == .running) && !(st.status == .completed)) = true := by
  have h0 : initStages =
      ({ name := "validation", agent_name := "validation_agent" } :
        PipelineStage) :: initStages.tail := rfl
  have hc : ¬(resp (List.length ([] : List PipelineStage))).status =
      .failed := by
    simp only [List.length_nil]
    rw [hst]
    simp
  have hv : (resp (List.length ([] : List
      PipelineStage))).output_data.valid.getD true = false := by
    simp only [List.length_nil]
    rw [hval]
    rfl
  simp only [run_pipeline, newTask]
  rw [h0, runStages_completed_abort reg resp _ []
    ({ name := "validation", agent_name := "validation_agent" } :
      PipelineStage) initStages.tail [] 0 hreg hc rfl hv]
  refine ⟨rfl, rfl, ?_, rfl, by simp [mkUpdate], ?_⟩
  · simp [snap, initStages, PIPELINE_STAGES, skipStage]
  · intro t ht
    simp only [List.mem_cons, List.mem_singleton, List.not_mem_nil,
      or_false] at ht
    rcases ht with rfl | rfl | rfl | rfl <;>
      simp [snap, initStages, PIPELINE_STAGES, skipStage, completedStage,
        runningStage]

/-- Witness for C1: concrete run whose validation agent completes with
`valid = false`. -/
theorem validation_invalid_aborts_and_skips_witness :
    regAll "validation_agent" = true ∧
    (respInvalidCompleted 0).status = .completed ∧
    (respInvalidCompleted 0).output_data.valid = some false ∧
    (run_pipeline regAll respInvalidCompleted
        (newTask "t" "Acme")).task.status = .failed ∧
    (((run_pipeline regAll respInvalidCompleted
        (newTask "t" "Acme")).task.pipeline.stages.drop 1).all
      fun st => st.status == .skipped) = true := by
  refine ⟨by decide, by decide, by decide, ?_, ?_⟩
  · exact (validation_invalid_aborts_and_skips regAll respInvalidCompleted
      "t" "Acme" (by decide) (by decide) (by decide)).1
  · exact (validation_invalid_aborts_and_skips regAll respInvalidCompleted
      "t" "Acme" (by decide) (by decide) (by decide)).2.2.1

/-- C2: on a freshly created task, when the validation stage's invocation
yields a `FAILED` response whose `valid` flag is absent or false, the
executor marks the task failed, persists, publishes a final failed
pipeline event, and terminates at once: every later stage is still
`pending` in every persisted state (none run, none marked skipped), and
every published event belongs to the validation stage. -/
theorem validation_failed_response_aborts (reg : String → Bool)
    (resp : Nat → TaskResponse) (tid nm : String)
    (hreg : reg "validation_agent" = true)
    (hst : (resp 0).status = .failed)
    (hval : (resp 0).output_data.valid = none ∨
      (resp 0).output_data.valid = some false) :
    (run_pipeline reg resp (newTask tid nm)).task.status = .failed ∧
    (run_pipeline reg resp (newTask tid nm)).task.completed_at_set = true ∧
    (((run_pipeline reg resp (newTask tid nm)).task.pipeline.stages.drop
        1).all fun st => st.status == .pending) = true ∧
    (run_pipeline reg resp (newTask tid nm)).trace.getLast? =
      some (run_pipeline reg resp (newTask tid nm)).task ∧
    ((run_pipeline reg resp (newTask tid nm)).events.getLast?.map
        fun e => (e.stage_name, e.status, e.message)) =
      some ("validation", StageStatus.failed,
        "Pipeline aborted: company validation failed.") ∧
    ((run_pipeline reg resp (newTask tid nm)).events.all
      fun e => e.stage_name == "validation") = true ∧
    ∀ t ∈ (run_pipeline reg resp (newTask tid nm)).trace,
      ((t.pipeline.stages.drop 1).all
        fun st => st.status == .pending) = true := by
  have hf : (resp (List.length ([] : List PipelineStage))).status =
      .failed := by simpa using hst
  have hv : (resp (List.length ([] : List
      PipelineStage))).output_data.valid.getD false = false := by
    simp only [List.length_nil]
    rcases hval with h | h <;> rw [h] <;> rfl
  simp only [run_pipeline, newTask]
  rw [show initStages =
      ({ name := "validation", agent_name := "validation_agent" } :
        PipelineStage) :: initStages.tail from rfl,
    runStages_failed_abort reg resp _ []
      ({ name := "validation", agent_name := "validation_agent" } :
        PipelineStage) initStages.tail [] 0 hreg hf rfl hv]
  refine ⟨rfl, rfl, ?_, rfl, by simp [mkUpdate], by simp [mkUpdate], ?_⟩
  · simp [snap, initStages, PIPELINE_STAGES]
  · intro t ht
    simp only [List.mem_cons, List.mem_singleton, List.not_mem_nil,
      or_false] at ht
    rcases ht with rfl | rfl | rfl | rfl <;>
      simp [snap, initStages, PIPELINE_STAGES, failedStage, runningStage]

/-- Witness for C2: concrete run whose validation agent fails with no
`valid` key in its (empty) output. -/
theorem validation_failed_response_aborts_witness :
    regAll "validation_agent" = true ∧
    (respInvalidFailed 0).status = .failed ∧
    ((respInvalidFailed 0).output_data.valid = none ∨
      (respInvalidFailed 0).output_data.valid = some false) ∧
    (run_pipeline regAll respInvalidFailed
        (newTask "t" "Acme")).task.status = .failed ∧
    (((run_pipeline regAll respInvalidFailed
        (newTask "t" "Acme")).task.pipeline.stages.drop 1).all
      fun st => st.status == .pending) = true := by
  refine ⟨by decide, by decide, by decide, ?_, ?_⟩
  · exact (validation_failed_response_aborts regAll respInvalidFailed
      "t" "Acme" (by decide) (by decide) (by decide)).1
  · exact (validation_failed_response_aborts regAll respInvalidFailed
      "t" "Acme" (by decide) (by decide) (by decide)).2.2.1

/-- C8: for a freshly created task, in every state the executor persists,
`current_stage` is within bounds whenever the task is `running`, and the
pipeline's `progress` is monotonically non-decreasing along the sequence
of persisted states. -/
theorem current_stage_bounded_and_progress_monotone (reg : String → Bool)
    (resp : Nat → TaskResponse) (tid nm : String) :
    (∀ t ∈ (run_pipeline reg resp (newTask tid nm)).trace,
      t.status = .running →
        t.pipeline.current_stage < t.pipeline.stages.length) ∧
    List.Chain' (· ≤ ·)
      ((run_pipeline reg resp (newTask tid nm)).trace.map
        fun t => t.pipeline.progress) := by
  constructor
  · intro t ht
    simp only [run_pipeline, newTask, List.mem_cons] at ht
    rcases ht with rfl | hmem
    · intro _
      simp [initStages, PIPELINE_STAGES]
    · exact runStages_bound reg resp _ initStages [] [] 0 t hmem
  · simp only [run_pipeline, newTask, List.map_cons]
    have hchain := runStages_progress_chain reg resp
      ({ newTask tid nm with status := StageStatus.running }) initStages
      [] [] 0 (by decide)
    simp only [List.reverse_nil, List.nil_append] at hchain
    simpa [newTask, ResearchPipeline.progress] using hchain

/-- Witness for C8 at a concrete registry/oracle; the first persisted
state is the running task at stage index 0 of 8. -/
theorem current_stage_bounded_and_progress_monotone_witness :
    ({ newTask "t" "Acme" with status := StageStatus.running } :
        ResearchTask) ∈
      (run_pipeline regAll respOK (newTask "t" "Acme")).trace ∧
    ({ newTask "t" "Acme" with status := StageStatus.running } :
        ResearchTask).status = .running ∧
    ({ newTask "t" "Acme" with status := StageStatus.running } :
        ResearchTask).pipeline.current_stage <
      ({ newTask "t" "Acme" with status := StageStatus.running } :
        ResearchTask).pipeline.stages.length ∧
    List.Chain' (· ≤ ·)
      ((run_pipeline regAll respOK (newTask "t" "Acme")).trace.map
        fun t => t.pipeline.progress) := by
  refine ⟨by decide, by decide, ?_, ?_⟩
  · exact (current_stage_bounded_and_progress_monotone regAll respOK
      "t" "Acme").1 _ (by decide) (by decide)
  · exact (current_stage_bounded_and_progress_monotone regAll respOK
      "t" "Acme").2

/-- C9: for a freshly created task, in every state the executor persists,
no stage is running or in a terminal state while its predecessor is still
pending or running: execution is strictly sequential. -/
theorem stages_strictly_sequential (reg : String → Bool)
    (resp : Nat → TaskResponse) (tid nm : String) :
    ∀ t ∈ (run_pipeline reg resp (newTask tid nm)).trace,
      List.Chain' noEarlyStart t.pipeline.stages := by
  intro t ht
  simp only [run_pipeline, newTask, List.mem_cons] at ht
  rcases ht with rfl | hmem
  · exact chain'_cons_pending _ _ (by decide)
  · exact runStages_seq reg resp _ initStages [] [] 0 (by simp)
      (by decide) t hmem

/-- Witness for C9 at a concrete registry/oracle and the first persisted
state. -/
theorem stages_strictly_sequential_witness :
    ({ newTask "t" "Acme" with status := StageStatus.running } :
        ResearchTask) ∈
      (run_pipeline regAll respOK (newTask "t" "Acme")).trace ∧
    List.Chain' noEarlyStart
      ({ newTask "t" "Acme" with status := StageStatus.running } :
        ResearchTask).pipeline.stages := by
  refine ⟨by decide, ?_⟩
  exact stages_strictly_sequential regAll respOK "t" "Acme" _ (by decide)

lemma mem_of_getLast?_eq {α : Type} {l : List α} {a : α}
    (h : l.getLast? = some a) : a ∈ l := by
  induction l with
  | nil => simp at h
  | cons x t ih =>
      cases t with
      | nil =>
          simp only [List.getLast?_singleton, Option.some_inj] at h
          simp [h]
      | cons y u =>
          rw [List.getLast?_cons_cons] at h
          exact List.mem_cons_of_mem _ (ih h)

lemma getLast?_append_of_getLast? {α : Type} (l₁ : List α)
    {l₂ : List α} {a : α} (h : l₂.getLast? = some a) :
    (l₁ ++ l₂).getLast? = some a := by
  induction l₁ with
  | nil => simpa
  | cons x t ih =>
      rw [List.cons_append]
      exact getLast?_cons_of_getLast? _ _ _ ih

lemma getLast_result_eq (stages : List PipelineStage)
    (results : List (String × Output))
    (hinv : ∀ s ∈ stages, results.lookup s.name = s.result)
    (hlast : (stages.map fun s => s.name).getLast? =
      some "report_generation") :
    stages.getLast?.map (fun s => s.result) =
      some (results.lookup "report_generation") := by
  rcases h : stages.getLast? with _ | s
  · rw [List.getLast?_eq_none_iff] at h
    subst h
    simp at hlast
  · have hmem : s ∈ stages := mem_of_getLast?_eq h
    have hname : s.name = "report_generation" := by
      rw [List.getLast?_map, h] at hlast
      simpa using hlast
    simp only [Option.map_some']
    rw [← hname, hinv s hmem]

lemma completes_after_validation (reg : String → Bool)
    (resp : Nat → TaskResponse) (base : ResearchTask) (sX : PipelineStage)
    (results : List (String × Output)) (hname : sX.name = "validation")
    (hinv : results.lookup "validation" = sX.result)
    (habs : ∀ s ∈ initStages.tail, results.lookup s.name = none) :
    (runStages reg resp base [sX] initStages.tail results 0).task.status =
        .completed ∧
    (runStages reg resp base [sX] initStages.tail results
        0).task.completed_at_set = true ∧
    ((runStages reg resp base [sX] initStages.tail results
        0).task.pipeline.stages.getLast?.map fun s => s.result) =
      some (runStages reg resp base [sX] initStages.tail results
        0).task.final_report ∧
    (runStages reg resp base [sX] initStages.tail results 0).trace.getLast?
      = some (runStages reg resp base [sX] initStages.tail results 0).task ∧
    ((runStages reg resp base [sX] initStages.tail results
        0).events.getLast?.map
      fun e => (e.stage_name, e.status, e.total_stages_data)) =
      some ("pipeline", StageStatus.completed, some 8) := by
  have hmain := runStages_complete reg resp base initStages.tail [sX]
    results 0
    (by intro s hs; fin_cases hs <;> decide)
    (by intro s hs; fin_cases hs <;> rfl)
    habs
    (by decide)
    (by intro s hs d hd
        rcases List.mem_singleton.1 hd with rfl
        rw [hname]
        fin_cases hs <;> decide)
    (by intro d hd
        rcases List.mem_singleton.1 hd with rfl
        rw [hname]
        exact hinv)
  refine ⟨hmain.1, hmain.2.1, ?_, hmain.2.2.2.2.2.1, ?_⟩
  · rw [hmain.2.2.1]
    apply getLast_result_eq _ _ hmain.2.2.2.2.1
    rw [hmain.2.2.2.1]
    exact getLast?_append_of_getLast? _ (by decide)
  · rw [hmain.2.2.2.2.2.2]
    simp [initStages, PIPELINE_STAGES]

lemma getLast?_map_cons_cons {α β : Type} (f : α → β) (a b : α)
    (l : List α) {y : β} (h : l.getLast?.map f = some y) :
    ((a :: b :: l).getLast?).map f = some y := by
  rcases hl : l.getLast? with _ | x
  · rw [hl] at h
    simp at h
  · rw [getLast?_cons_of_getLast? _ _ _
      (getLast?_cons_of_getLast? _ _ _ hl)]
    rw [hl] at h
    exact h

/-- C3: for every task built with the standard stage list and a fresh
pipeline (as `start_research` builds them), if the validation outcome is
not fatal, the stage loop runs to completion: the task ends `completed`
with `completed_at` set, `final_result` is the last stage's output (or
none if that stage produced none), the final state is persisted last, and
the final published event is the pipeline-completed event carrying the
total stage count. -/
theorem nonfatal_run_completes (reg : String → Bool)
    (resp : Nat → TaskResponse) (task : ResearchTask)
    (hstages : task.pipeline.stages = initStages)
    (hresults : task.pipeline.results = [])
    (hcur : task.pipeline.current_stage = 0)
    (hnf : reg "validation_agent" = true →
      ¬fatalValidationResponse (resp 0)) :
    (run_pipeline reg resp task).task.status = .completed ∧
    (run_pipeline reg resp task).task.completed_at_set = true ∧
    ((run_pipeline reg resp task).task.pipeline.stages.getLast?.map
      fun s => s.result) =
      some (run_pipeline reg resp task).task.final_report ∧
    (run_pipeline reg resp task).trace.getLast? =
      some (run_pipeline reg resp task).task ∧
    ((run_pipeline reg resp task).events.getLast?.map
      fun e => (e.stage_name, e.status, e.total_stages_data)) =
      some ("pipeline", StageStatus.completed, some 8) := by
  simp only [run_pipeline]
  rw [hstages, hresults, hcur]
  rw [show initStages =
      ({ name := "validation", agent_name := "validation_agent" } :
        PipelineStage) :: initStages.tail from rfl]
  by_cases hreg : reg "validation_agent" = true
  · have hnf' := hnf hreg
    by_cases hf : (resp 0).status = .failed
    · have hvalid : ¬((resp 0).output_data.valid.getD false = false) := by
        intro hcontra
        exact hnf' (by rw [fatalValidationResponse, if_pos hf]
                       exact hcontra)
      rw [runStages_failed_continue reg resp _ []
        ({ name := "validation", agent_name := "validation_agent" } :
          PipelineStage) initStages.tail [] 0 hreg (by simpa using hf)
        (fun hh => hvalid (by simpa using hh.2))]
      simp only [List.length_nil]
      have hc := completes_after_validation reg resp
        ({ task with status := StageStatus.running } : ResearchTask)
        (failedStage
          ({ name := "validation", agent_name := "validation_agent" } :
            PipelineStage) (resp 0))
        [] rfl rfl (by intro s hs; fin_cases hs <;> rfl)
      simp only [consResult]
      refine ⟨hc.1, hc.2.1, hc.2.2.1, ?_, ?_⟩
      · refine getLast?_cons_of_getLast? _ _ _ ?_
        refine getLast?_cons_of_getLast? _ _ _ ?_
        refine getLast?_cons_of_getLast? _ _ _ ?_
        exact hc.2.2.2.1
      · apply getLast?_map_cons_cons
        exact hc.2.2.2.2
    · have hvalid : ¬((resp 0).output_data.valid.getD true = false) := by
        intro hcontra
        exact hnf' (by rw [fatalValidationResponse, if_neg hf]
                       exact hcontra)
      rw [runStages_completed_continue reg resp _ []
        ({ name := "validation", agent_name := "validation_agent" } :
          PipelineStage) initStages.tail [] 0 hreg (by simpa using hf)
        (fun hh => hvalid (by simpa using hh.2))]
      simp only [List.length_nil]
      have hc := completes_after_validation reg resp
        ({ task with status := StageStatus.running } : ResearchTask)
        (completedStage
          ({ name := "validation", agent_name := "validation_agent" } :
            PipelineStage) (resp 0))
        (dictInsert []
          ({ name := "validation", agent_name := "validation_agent" } :
            PipelineStage).name
          (resp 0).output_data)
        rfl
        (by simp [dictInsert, completedStage, List.lookup])
        (by intro s hs; fin_cases hs <;> rfl)
      simp only [consResult]
      refine ⟨hc.1, hc.2.1, hc.2.2.1, ?_, ?_⟩
      · refine getLast?_cons_of_getLast? _ _ _ ?_
        refine getLast?_cons_of_getLast? _ _ _ ?_
        refine getLast?_cons_of_getLast? _ _ _ ?_
        exact hc.2.2.2.1
      · apply getLast?_map_cons_cons
        exact hc.2.2.2.2
  · rw [runStages_notfound reg resp _ []
      ({ name := "validation", agent_name := "validation_agent" } :
        PipelineStage) initStages.tail [] 0 (by simpa using hreg)]
    simp only [List.length_nil]
    have hc := completes_after_validation reg resp
      ({ task with status := StageStatus.running } : ResearchTask)
      (notFoundStage
        ({ name := "validation", agent_name := "validation_agent" } :
          PipelineStage))
      [] rfl rfl (by intro s hs; fin_cases hs <;> rfl)
    simp only [consResult]
    refine ⟨hc.1, hc.2.1, hc.2.2.1, ?_, ?_⟩
    · refine getLast?_cons_of_getLast? _ _ _ ?_
      refine getLast?_cons_of_getLast? _ _ _ ?_
      refine getLast?_cons_of_getLast? _ _ _ ?_
      exact hc.2.2.2.1
    · apply getLast?_map_cons_cons
      exact hc.2.2.2.2

/-- Witness for C3: concrete all-successful run of the standard pipeline. -/
theorem nonfatal_run_completes_witness :
    (newTask "t" "Acme").pipeline.stages = initStages ∧
    (newTask "t" "Acme").pipeline.results = [] ∧
    (newTask "t" "Acme").pipeline.current_stage = 0 ∧
    (regAll "validation_agent" = true →
      ¬fatalValidationResponse (respOK 0)) ∧
    (run_pipeline regAll respOK (newTask "t" "Acme")).task.status =
      .completed ∧
    ((run_pipeline regAll respOK (newTask "t" "Acme")).events.getLast?.map
      fun e => (e.stage_name, e.status, e.total_stages_data)) =
      some ("pipeline", StageStatus.completed, some 8) := by
  have hnfc : ¬fatalValidationResponse (respOK 0) := by
    rw [fatalValidationResponse,
      if_neg (by decide : ¬(respOK 0).status = StageStatus.failed)]
    decide
  refine ⟨rfl, rfl, rfl, fun _ => hnfc, ?_, ?_⟩
  · exact (nonfatal_run_completes regAll respOK (newTask "t" "Acme")
      rfl rfl rfl (fun _ => hnfc)).1
  · exact (nonfatal_run_completes regAll respOK (newTask "t" "Acme")
      rfl rfl rfl (fun _ => hnfc)).2.2.2.2
